import Mathlib

/-!
Verification of benvh/ricer (src/ricer.go), a dotfile template materializer.
The Go program is shallowly embedded: pure string manipulation from the Go
standard library is translated function by function, the viper configuration
store and the html/template engine are modelled as explicit collaborators,
and filesystem effects are recorded as an explicit operation trace.  The
dispatch loop with its 4-slot throttle channel and WaitGroup (ricer.go lines
61-78) is additionally modelled as a labelled transition system.
-/

set_option maxHeartbeats 1000000

namespace Ricer

/-- Filesystem contents: a map from path to file content.  A path absent from
the map is a missing or unreadable file.  Directories are not tracked beyond
the mkdirAll operations recorded in the operation trace. -/
abbrev FS := String → Option String

/-- A variable mapping as returned by viper.GetStringMap for one template,
modelled as an association list. -/
abbrev VarsMap := List (String × String)

/-- Model of the viper configuration store loaded by parseConfiguration
(github.com/spf13/viper, an external collaborator): nested mappings and
scalar strings, each looked up by dotted path. -/
structure Config where
  maps : String → Option VarsMap
  strs : String → Option String

/-- viper.GetStringMap: an absent key yields the empty map, never an error. -/
def getStringMap (cfg : Config) (key : String) : VarsMap :=
  (cfg.maps key).getD []

/-- viper.GetString: an absent key yields the empty string. -/
def getString (cfg : Config) (key : String) : String :=
  (cfg.strs key).getD ""

/-- Core of Go filepath.Ext on the reversed character list.  Go scans the path
backwards and returns the suffix from the first dot it meets, stopping with the
empty extension at a path separator or at the start (used at ricer.go line
133). -/
def extR : List Char → List Char
  | [] => []
  | c :: cs =>
    if c = '/' then []
    else if c = '.' then [c]
    else
      match extR cs with
      | [] => []
      | e => c :: e

/-- Go filepath.Ext with the unix separator. -/
def goExt (p : String) : String := ⟨(extR p.data.reverse).reverse⟩

/-- Boolean prefix test on character lists, recursing on the first argument
(the Go strings.HasSuffix check, viewed on reversed lists). -/
def prefixCheck : List Char → List Char → Bool
  | [], _ => true
  | a :: as, l =>
    match l with
    | [] => false
    | b :: bs => a == b && prefixCheck as bs

/-- Go strings.TrimSuffix on reversed lists: drop the reversed suffix when it
is a prefix of the reversed string, otherwise return the string unchanged. -/
def trimSuffixR (rs rsuf : List Char) : List Char :=
  if prefixCheck rsuf rs then rs.drop rsuf.length else rs

/-- Go strings.TrimSuffix. -/
def goTrimSuffix (s suf : String) : String :=
  ⟨(trimSuffixR s.data.reverse suf.data.reverse).reverse⟩

/-- Go filepath.Base on the reversed character list: the empty path gives ".",
trailing separators are dropped, the last element is what remains up to the
next separator, and an all-separator path gives "/". -/
def baseR (rp : List Char) : List Char :=
  if rp.isEmpty then ['.']
  else
    let rp1 := rp.dropWhile (fun c => c == '/')
    if rp1.isEmpty then ['/'] else rp1.takeWhile (fun c => c != '/')

/-- Go filepath.Base with the unix separator. -/
def goBase (p : String) : String := ⟨(baseR p.data.reverse).reverse⟩

/-- Go path.Dir on the reversed character list: everything before the final
separator run; "." when there is no separator, "/" when only the root remains.
The dot-segment normalization of path.Clean is not modelled: no call site in
ricer.go produces dot segments. -/
def dirR (rp : List Char) : List Char :=
  let r := rp.dropWhile (fun c => c != '/')
  if r.isEmpty then ['.']
  else
    let r2 := r.dropWhile (fun c => c == '/')
    if r2.isEmpty then ['/'] else r2

/-- Go path.Dir (ricer.go line 145). -/
def goDir (p : String) : String := ⟨(dirR p.data.reverse).reverse⟩

/-- Go path.Join for the call sites in ricer.go, whose second argument always
starts with a slash; the slash-collapsing of path.Clean is not modelled. -/
def goPathJoin (a b : String) : String := a ++ b

/-- Model of Go html/template, an external collaborator: parse turns file
contents into a template value or fails (covering both an unreadable file and
a syntax error), and exec renders a template against a variable mapping,
returning the bytes streamed to the destination (possibly a partial render)
together with a success flag.  ricer.go line 157 discards that flag. -/
structure Engine where
  Tmpl : Type
  parse : String → Option Tmpl
  exec : Tmpl → VarsMap → String × Bool

/-- A recorded filesystem mutation performed by handleTemplate. -/
inductive FsOp where
  | mkdirAll (dir : String)
  | create (file : String)
  | write (file : String) (content : String)
  deriving DecidableEq

/-- The path whose content a mutation touches (mkdirAll touches none). -/
def FsOp.target : FsOp → Option String
  | .mkdirAll _ => none
  | .create p => some p
  | .write p _ => some p

/-- Effect of one mutation on the content map: os.Create truncates the file to
empty, the subsequent template execution writes the rendered bytes. -/
def applyOp (fs : FS) : FsOp → FS
  | .mkdirAll _ => fs
  | .create p => fun q => if q = p then some "" else fs q
  | .write p c => fun q => if q = p then some c else fs q

/-- Effect of a trace of mutations, applied in order. -/
def applyOps : FS → List FsOp → FS
  | fs, [] => fs
  | fs, op :: rest => applyOps (applyOp fs op) rest

/-- ricer.go line 133: the template name derived from the file path,
filepath.Base of strings.TrimSuffix of the file and its filepath.Ext. -/
def tmplName (file : String) : String := goBase (goTrimSuffix file (goExt file))

/-- The template name the specification describes: the file's base name with
its final extension stripped and all directory components removed.  This
definition follows the spec's words, to be compared with tmplName, which is
translated from the source. -/
def specTmplName (file : String) : String :=
  goTrimSuffix (goBase file) (goExt (goBase file))

/-- The configured destination of a template file (ricer.go line 137). -/
def outputOf (cfg : Config) (file : String) : String :=
  getString cfg (tmplName file ++ ".output")

/-- The ambient process environment of ricer.go: the -c command-line flag, the
XDG_CONFIG_HOME and HOME environment variables, the user database lookup
(user.Current, none when it fails), the two viper loading modes, filepath.Glob,
the error behaviour of os.MkdirAll and os.Create, and the initial filesystem
contents. -/
structure Env where
  configFlag : String
  xdgConfigHome : String
  home : String
  userHomeDir : Option String
  loadFile : String → Except String Config
  loadSearch : String → Except String Config
  glob : String → List String × Option String
  mkdirFails : String → Bool
  createFails : String → Bool
  fs : FS

/-- Outcome of one handleTemplate call: the returned error, the progress lines
printed to the console, and the filesystem mutations performed, in order. -/
structure JobResult where
  err : Option String
  prints : List String
  ops : List FsOp

/-- ricer.go lines 123-161.  Parse the template file (template.ParseFiles reads
the file, so a missing file and a syntax error both fail the same way), derive
the template name, look up the vars mapping and the output path, require a
nonempty output path, create the directory tree, create (truncate) the file,
then execute the template into it.  The trace records mkdirAll only when it
succeeds, and the execution success flag is dropped exactly as at line 157. -/
def handleTemplate (E : Engine) (cfg : Config) (env : Env) (fs : FS) (file : String) : JobResult :=
  match (fs file).bind E.parse with
  | none => { err := some ("Could not parse template " ++ file), prints := [], ops := [] }
  | some t =>
    let tn := tmplName file
    let m := getStringMap cfg (tn ++ ".vars")
    let outputFile := getString cfg (tn ++ ".output")
    if outputFile = "" then
      { err := some ("You have to define an output for template " ++ tn), prints := [], ops := [] }
    else
      let d := goDir outputFile
      if env.mkdirFails d then
        { err := some ("[1] Could not create " ++ outputFile ++ " for template " ++ tn),
          prints := [], ops := [] }
      else if env.createFails outputFile then
        { err := some ("[2] Could not create " ++ outputFile ++ " for template " ++ tn),
          prints := [], ops := [FsOp.mkdirAll d] }
      else
        { err := none,
          prints := ["Creating " ++ outputFile ++ " from template " ++ tn ++ "."],
          ops := [FsOp.mkdirAll d, FsOp.create outputFile,
                  FsOp.write outputFile (E.exec t m).1] }

/-- The render phase of main (ricer.go lines 65-76), linearized: each
discovered file is handed to handleTemplate, a returned error is printed
(line 72), and the filesystem mutations take effect.  Returns the final
filesystem, the console lines, and the full mutation trace. -/
def runJobs (E : Engine) (cfg : Config) (env : Env) : FS → List String → FS × List String × List FsOp
  | fs, [] => (fs, [], [])
  | fs, file :: rest =>
    let r := handleTemplate E cfg env fs file
    let lines := r.prints ++ (match r.err with | some m => [m] | none => [])
    let next := runJobs E cfg env (applyOps fs r.ops) rest
    (next.1, lines ++ next.2.1, r.ops ++ next.2.2)

/-- ricer.go lines 96-112: XDG_CONFIG_HOME, falling back to HOME/.config,
falling back to the user database, then the ricer subdirectory.  The error
case is a failing user.Current lookup. -/
def configHomeDirectory (env : Env) : Except String String :=
  if env.xdgConfigHome = "" then
    if env.home = "" then
      match env.userHomeDir with
      | none => Except.error "user: lookup failed"
      | some h => Except.ok (goPathJoin (goPathJoin h "/.config") "/ricer")
    else Except.ok (goPathJoin (goPathJoin env.home "/.config") "/ricer")
  else Except.ok (goPathJoin env.xdgConfigHome "/ricer")

/-- ricer.go lines 114-121: the templates subdirectory of the config home.
Note that this function never inspects the filesystem: it fails only when
configHomeDirectory fails, never because the directory is absent. -/
def templatesDirectory (env : Env) : Except String String :=
  match configHomeDirectory env with
  | Except.error e => Except.error e
  | Except.ok c => Except.ok (goPathJoin c "/templates")

/-- ricer.go lines 81-94: with the -c flag empty viper searches the config
home for a file named config, otherwise it reads exactly the flagged file. -/
def parseConfiguration (env : Env) : Except String Config :=
  if env.configFlag = "" then
    match configHomeDirectory env with
    | Except.error e => Except.error e
    | Except.ok ch => env.loadSearch ch
  else env.loadFile env.configFlag

/-- Observable outcome of one run of main: the panic message if any, the
console lines in order, the filesystem mutation trace, the template files
dispatched, and whether the process exits with success status. -/
structure MainResult where
  panicMsg : Option String
  console : List String
  ops : List FsOp
  processed : List String
  exitOk : Bool
  deriving DecidableEq

/-- ricer.go lines 42-79.  A configuration load failure panics (line 52).  A
templatesDirectory failure prints the guidance line and returns with success
status (lines 56-59); Go's tmplDir is the empty string in that branch, so the
printed path is empty.  Otherwise the glob error is discarded (line 64) and
every matched file is dispatched. -/
def main (E : Engine) (env : Env) : MainResult :=
  match parseConfiguration env with
  | Except.error e =>
    { panicMsg := some e, console := [], ops := [], processed := [], exitOk := false }
  | Except.ok cfg =>
    match templatesDirectory env with
    | Except.error _ =>
      { panicMsg := none,
        console := ["Templates directory does not exist, please create " ++ ""],
        ops := [], processed := [], exitOk := true }
    | Except.ok tmplDir =>
      let files := (env.glob (tmplDir ++ "/*.tmpl")).1
      let run := runJobs E cfg env env.fs files
      { panicMsg := none, console := run.2.1, ops := run.2.2,
        processed := files, exitOk := true }

/-- State of the dispatch loop of ricer.go lines 61-78, abstracted to the
number of jobs in each phase.  A job is pending until the loop reaches it;
dispatched once the loop has sent its token into the throttle channel and
called wg.Add (lines 66-67) but before handleTemplate starts; executing while
handleTemplate runs (line 71); finished once handleTemplate has returned but
before the token is received back (line 74); released after the token is back
but before the deferred wg.Done runs (line 70); done afterwards.  waited
records that the main flow has passed wg.Wait (line 78). -/
structure TState where
  pending : Nat
  dispatched : Nat
  executing : Nat
  finished : Nat
  released : Nat
  done : Nat
  waited : Bool
  deriving Repr, DecidableEq

/-- Tokens currently inside the throttle channel, whose capacity is 4
(ricer.go line 61): one per job between its send and its receive. -/
def TState.tokens (s : TState) : Nat := s.dispatched + s.executing + s.finished

/-- The WaitGroup counter: one per job between wg.Add and wg.Done. -/
def TState.wgCount (s : TState) : Nat :=
  s.dispatched + s.executing + s.finished + s.released

/-- One interleaving step of the dispatch loop and its goroutines.  The
dispatch step blocks while the channel holds 4 tokens; the wait step requires
the loop to have dispatched every file and the WaitGroup counter to be 0. -/
inductive TStep : TState → TState → Prop
  | dispatchJob (s : TState) (h1 : 0 < s.pending) (h2 : s.tokens < 4) :
      TStep s { s with pending := s.pending - 1, dispatched := s.dispatched + 1 }
  | startJob (s : TState) (h : 0 < s.dispatched) :
      TStep s { s with dispatched := s.dispatched - 1, executing := s.executing + 1 }
  | finishJob (s : TState) (h : 0 < s.executing) :
      TStep s { s with executing := s.executing - 1, finished := s.finished + 1 }
  | releaseJob (s : TState) (h : 0 < s.finished) :
      TStep s { s with finished := s.finished - 1, released := s.released + 1 }
  | completeJob (s : TState) (h : 0 < s.released) :
      TStep s { s with released := s.released - 1, done := s.done + 1 }
  | waitMain (s : TState) (h1 : s.pending = 0) (h2 : s.wgCount = 0) :
      TStep s { s with waited := true }

/-- The loop starts with the n globbed files pending and nothing dispatched. -/
def initState (n : Nat) : TState :=
  { pending := n, dispatched := 0, executing := 0, finished := 0,
    released := 0, done := 0, waited := false }

/-- States reachable by the dispatch loop for n discovered template files. -/
inductive Reachable (n : Nat) : TState → Prop
  | init : Reachable n (initState n)
  | step {s t : TState} : Reachable n s → TStep s t → Reachable n t

/-- The inductive invariant of the throttle state machine: the phase counts
always sum to the number of discovered files, the channel never holds more
than its capacity of 4 tokens, and once the main flow has passed wg.Wait every
job is done. -/
def TInv (n : Nat) (s : TState) : Prop :=
  s.pending + s.dispatched + s.executing + s.finished + s.released + s.done = n ∧
  s.tokens ≤ 4 ∧
  (s.waited = true → s.done = n)

/-- A concrete template engine for witnesses: every file parses, and execution
echoes the file contents and succeeds. -/
def engEcho : Engine :=
  { Tmpl := String, parse := fun s => some s, exec := fun t _ => (t, true) }

/-- A concrete configuration with no keys at all. -/
def cfgEmpty : Config := { maps := fun _ => none, strs := fun _ => none }

/-- A concrete configuration for the shell template of the spec's scenario. -/
def cfgShell : Config :=
  { maps := fun k => if k = "shell.vars" then some [("editor", "vim")] else none,
    strs := fun k => if k = "shell.output" then some "/tmp/out/shellrc" else none }

/-- A concrete configuration whose shell template has an output but no vars. -/
def cfgNoVars : Config :=
  { maps := fun _ => none,
    strs := fun k => if k = "shell.output" then some "/tmp/out/shellrc" else none }

/-- A concrete filesystem holding one template file. -/
def fsShell : FS :=
  fun p => if p = "/d/shell.tmpl" then some "export EDITOR=vim" else none

/-- A concrete healthy environment for witnesses. -/
def envShell : Env :=
  { configFlag := "", xdgConfigHome := "/h/.config", home := "/h",
    userHomeDir := some "/h",
    loadFile := fun _ => Except.ok cfgShell,
    loadSearch := fun _ => Except.ok cfgShell,
    glob := fun _ => (["/d/shell.tmpl"], none),
    mkdirFails := fun _ => false, createFails := fun _ => false, fs := fsShell }

/-- An environment whose glob enumeration fails with a bad-pattern error,
returning no files (as filepath.Glob does on ErrBadPattern). -/
def envBadGlob : Env :=
  { envShell with glob := fun _ => ([], some "syntax error in pattern") }

/-- An environment whose configuration search fails to load. -/
def envBadConfig : Env :=
  { envShell with loadSearch := fun _ => Except.error "cannot read config" }

/-- An environment in which the templates directory
/h/.config/ricer/templates does not exist: the filesystem is empty and glob
over the absent directory matches nothing and reports no error, exactly as
filepath.Glob behaves on a missing directory. -/
def envNoTemplatesDir : Env :=
  { configFlag := "", xdgConfigHome := "/h/.config", home := "/h",
    userHomeDir := some "/h",
    loadFile := fun _ => Except.ok cfgEmpty,
    loadSearch := fun _ => Except.ok cfgEmpty,
    glob := fun _ => ([], none),
    mkdirFails := fun _ => false, createFails := fun _ => false,
    fs := fun _ => none }

/-- C1: run of ricer with a fully healthy environment whose templates
directory /h/.config/ricer/templates does not exist.  The process exits with
success status, performs no filesystem writes and processes no templates, but
prints nothing at all: the guidance line of ricer.go line 57 is not reached,
because templatesDirectory (lines 114-121) never checks whether the directory
exists, and its only error branch (a failed user lookup) would print an empty
path.  This contradicts the claim that guidance naming the expected templates
path is printed. -/
theorem ricer_missing_templates_dir_silent :
    main engEcho envNoTemplatesDir =
      { panicMsg := none, console := [], ops := [], processed := [], exitOk := true } := by
  rfl

/-- C2: when the configuration lacks a nonempty name.output binding for a
template that parses, handleTemplate returns the error naming the template and
records no filesystem mutation whatsoever: the error return at ricer.go lines
140-142 precedes MkdirAll and Create. -/
theorem missing_output_fails_without_writes (E : Engine) (cfg : Config) (env : Env)
    (fs : FS) (file : String) (t : E.Tmpl)
    (hp : (fs file).bind E.parse = some t)
    (ho : getString cfg (tmplName file ++ ".output") = "") :
    handleTemplate E cfg env fs file =
      { err := some ("You have to define an output for template " ++ tmplName file),
        prints := [], ops := [] } := by
  simp [handleTemplate, hp, ho]

/-- Witness for C2 at the concrete shell template with an empty
configuration. -/
theorem missing_output_fails_without_writes_witness :
    (fsShell "/d/shell.tmpl").bind engEcho.parse = some "export EDITOR=vim" ∧
    getString cfgEmpty (tmplName "/d/shell.tmpl" ++ ".output") = "" ∧
    handleTemplate engEcho cfgEmpty envShell fsShell "/d/shell.tmpl" =
      { err := some ("You have to define an output for template " ++ tmplName "/d/shell.tmpl"),
        prints := [], ops := [] } :=
  ⟨rfl, rfl,
    missing_output_fails_without_writes engEcho cfgEmpty envShell fsShell
      "/d/shell.tmpl" "export EDITOR=vim" rfl rfl⟩

/-- C3: once a job reaches the write step (template parsed, output path
nonempty, MkdirAll and Create succeed) it returns success and the destination
file is created with whatever bytes execution streamed, regardless of the
execution success flag: the right-hand side depends only on the first
component of E.exec, never on its Bool, because ricer.go line 157 discards
the error of t.Execute. -/
theorem exec_error_not_surfaced (E : Engine) (cfg : Config) (env : Env)
    (fs : FS) (file : String) (t : E.Tmpl)
    (hp : (fs file).bind E.parse = some t)
    (ho : getString cfg (tmplName file ++ ".output") ≠ "")
    (hd : env.mkdirFails (goDir (getString cfg (tmplName file ++ ".output"))) = false)
    (hc : env.createFails (getString cfg (tmplName file ++ ".output")) = false) :
    handleTemplate E cfg env fs file =
      { err := none,
        prints := ["Creating " ++ getString cfg (tmplName file ++ ".output") ++
                   " from template " ++ tmplName file ++ "."],
        ops := [FsOp.mkdirAll (goDir (getString cfg (tmplName file ++ ".output"))),
                FsOp.create (getString cfg (tmplName file ++ ".output")),
                FsOp.write (getString cfg (tmplName file ++ ".output"))
                  (E.exec t (getStringMap cfg (tmplName file ++ ".vars"))).1] } := by
  simp [handleTemplate, hp, ho, hd, hc]

/-- Witness for C3 at the concrete shell template, instantiated with an
engine whose execution reports failure: the job still succeeds. -/
theorem exec_error_not_surfaced_witness :
    (fsShell "/d/shell.tmpl").bind
        (Engine.mk String (fun s => some s) (fun t _ => (t, false))).parse =
      some "export EDITOR=vim" ∧
    getString cfgShell (tmplName "/d/shell.tmpl" ++ ".output") ≠ "" ∧
    handleTemplate (Engine.mk String (fun s => some s) (fun t _ => (t, false)))
        cfgShell envShell fsShell "/d/shell.tmpl" =
      { err := none,
        prints := ["Creating " ++ getString cfgShell (tmplName "/d/shell.tmpl" ++ ".output") ++
                   " from template " ++ tmplName "/d/shell.tmpl" ++ "."],
        ops := [FsOp.mkdirAll (goDir (getString cfgShell (tmplName "/d/shell.tmpl" ++ ".output"))),
                FsOp.create (getString cfgShell (tmplName "/d/shell.tmpl" ++ ".output")),
                FsOp.write (getString cfgShell (tmplName "/d/shell.tmpl" ++ ".output"))
                  ((Engine.mk String (fun s => some s) (fun t _ => (t, false))).exec
                    "export EDITOR=vim"
                    (getStringMap cfgShell (tmplName "/d/shell.tmpl" ++ ".vars"))).1] } :=
  ⟨rfl, by decide,
    exec_error_not_surfaced (Engine.mk String (fun s => some s) (fun t _ => (t, false)))
      cfgShell envShell fsShell "/d/shell.tmpl" "export EDITOR=vim" rfl (by decide) rfl rfl⟩

/-- C5: a template whose configuration has no name.vars entry renders with the
empty variable mapping and succeeds; the absence is never an error, because
viper.GetStringMap returns the empty map for an absent key (ricer.go line
136). -/
theorem absent_vars_empty_map (E : Engine) (cfg : Config) (env : Env)
    (fs : FS) (file : String) (t : E.Tmpl)
    (hv : cfg.maps (tmplName file ++ ".vars") = none)
    (hp : (fs file).bind E.parse = some t)
    (ho : getString cfg (tmplName file ++ ".output") ≠ "")
    (hd : env.mkdirFails (goDir (getString cfg (tmplName file ++ ".output"))) = false)
    (hc : env.createFails (getString cfg (tmplName file ++ ".output")) = false) :
    handleTemplate E cfg env fs file =
      { err := none,
        prints := ["Creating " ++ getString cfg (tmplName file ++ ".output") ++
                   " from template " ++ tmplName file ++ "."],
        ops := [FsOp.mkdirAll (goDir (getString cfg (tmplName file ++ ".output"))),
                FsOp.create (getString cfg (tmplName file ++ ".output")),
                FsOp.write (getString cfg (tmplName file ++ ".output"))
                  (E.exec t []).1] } := by
  have hm : getStringMap cfg (tmplName file ++ ".vars") = [] := by
    simp [getStringMap, hv]
  simp [handleTemplate, hp, hm, ho, hd, hc]

/-- Witness for C5 at the concrete shell template with a configuration that
binds shell.output but has no shell.vars entry. -/
theorem absent_vars_empty_map_witness :
    cfgNoVars.maps (tmplName "/d/shell.tmpl" ++ ".vars") = none ∧
    (fsShell "/d/shell.tmpl").bind engEcho.parse = some "export EDITOR=vim" ∧
    getString cfgNoVars (tmplName "/d/shell.tmpl" ++ ".output") ≠ "" ∧
    handleTemplate engEcho cfgNoVars envShell fsShell "/d/shell.tmpl" =
      { err := none,
        prints := ["Creating " ++ getString cfgNoVars (tmplName "/d/shell.tmpl" ++ ".output") ++
                   " from template " ++ tmplName "/d/shell.tmpl" ++ "."],
        ops := [FsOp.mkdirAll (goDir (getString cfgNoVars (tmplName "/d/shell.tmpl" ++ ".output"))),
                FsOp.create (getString cfgNoVars (tmplName "/d/shell.tmpl" ++ ".output")),
                FsOp.write (getString cfgNoVars (tmplName "/d/shell.tmpl" ++ ".output"))
                  (engEcho.exec "export EDITOR=vim" []).1] } :=
  ⟨rfl, rfl, by decide,
    absent_vars_empty_map engEcho cfgNoVars envShell fsShell "/d/shell.tmpl"
      "export EDITOR=vim" rfl rfl (by decide) rfl rfl⟩

/-- C8: when configuration loading fails, main panics with that error and
nothing else happens: no console output, no filesystem mutation, no template
located or dispatched, and the process does not exit with success status
(ricer.go lines 51-53). -/
theorem config_load_failure_panics (E : Engine) (env : Env) (e : String)
    (h : parseConfiguration env = Except.error e) :
    main E env =
      { panicMsg := some e, console := [], ops := [], processed := [], exitOk := false } := by
  simp only [main, h]

/-- Witness for C8 at the concrete environment whose configuration search
fails. -/
theorem config_load_failure_panics_witness :
    parseConfiguration envBadConfig = Except.error "cannot read config" ∧
    main engEcho envBadConfig =
      { panicMsg := some "cannot read config", console := [], ops := [],
        processed := [], exitOk := false } :=
  ⟨rfl, config_load_failure_panics engEcho envBadConfig "cannot read config" rfl⟩

/-- C9: a nonempty -c flag changes only which configuration file viper reads
(parseConfiguration takes the SetConfigFile branch, ricer.go line 90); the
templates directory is still resolved from XDG_CONFIG_HOME and HOME alone,
unchanged by any value of the flag (lines 114-121 never consult the flag). -/
theorem explicit_config_flag_independence (env : Env) (c : String) (hc : c ≠ "") :
    templatesDirectory { env with configFlag := c } = templatesDirectory env ∧
    parseConfiguration { env with configFlag := c } = env.loadFile c := by
  constructor
  · rfl
  · simp [parseConfiguration, hc]

/-- Witness for C9 on the concrete healthy environment with an explicit
configuration file path. -/
theorem explicit_config_flag_independence_witness :
    "/etc/ricer/config.yml" ≠ "" ∧
    templatesDirectory { envShell with configFlag := "/etc/ricer/config.yml" } =
      templatesDirectory envShell ∧
    parseConfiguration { envShell with configFlag := "/etc/ricer/config.yml" } =
      envShell.loadFile "/etc/ricer/config.yml" :=
  ⟨by decide,
    explicit_config_flag_independence envShell "/etc/ricer/config.yml" (by decide)⟩

/-- C10: an error from filepath.Glob is discarded by the blank identifier at
ricer.go line 64.  When glob reports a bad-pattern error (and hence returns no
files, as filepath.Glob does), the run is indistinguishable from a run that
discovered zero templates: success status, no console report of the failure,
no filesystem mutation, nothing processed. -/
theorem glob_error_silently_ignored (E : Engine) (env : Env) (cfg : Config)
    (d e : String)
    (h1 : parseConfiguration env = Except.ok cfg)
    (h2 : templatesDirectory env = Except.ok d)
    (h3 : env.glob (d ++ "/*.tmpl") = ([], some e)) :
    main E env =
      { panicMsg := none, console := [], ops := [], processed := [], exitOk := true } := by
  simp only [main, h1, h2, h3, runJobs]

/-- Witness for C10 at the concrete environment whose glob fails. -/
theorem glob_error_silently_ignored_witness :
    parseConfiguration envBadGlob = Except.ok cfgShell ∧
    templatesDirectory envBadGlob = Except.ok "/h/.config/ricer/templates" ∧
    envBadGlob.glob ("/h/.config/ricer/templates" ++ "/*.tmpl") =
      ([], some "syntax error in pattern") ∧
    main engEcho envBadGlob =
      { panicMsg := none, console := [], ops := [], processed := [], exitOk := true } :=
  ⟨rfl, rfl, rfl,
    glob_error_silently_ignored engEcho envBadGlob cfgShell
      "/h/.config/ricer/templates" "syntax error in pattern" rfl rfl rfl⟩

/-- Every reachable state of the dispatch loop satisfies the invariant. -/
lemma reachable_inv {n : Nat} {s : TState} (h : Reachable n s) : TInv n s := by
  induction h with
  | init => exact ⟨by simp [initState], by simp [initState, TState.tokens], by simp [initState]⟩
  | step hr hs ih =>
      obtain ⟨h1, h2, h3⟩ := ih
      dsimp only [TState.tokens] at h2
      cases hs with
      | dispatchJob hp ht =>
          dsimp only [TState.tokens] at ht
          exact ⟨by dsimp only; omega, by dsimp only [TState.tokens]; omega, fun hw => h3 hw⟩
      | startJob hp =>
          exact ⟨by dsimp only; omega, by dsimp only [TState.tokens]; omega, fun hw => h3 hw⟩
      | finishJob hp =>
          exact ⟨by dsimp only; omega, by dsimp only [TState.tokens]; omega, fun hw => h3 hw⟩
      | releaseJob hp =>
          exact ⟨by dsimp only; omega, by dsimp only [TState.tokens]; omega, fun hw => h3 hw⟩
      | completeJob hp =>
          refine ⟨by dsimp only; omega, by dsimp only [TState.tokens]; omega, fun hw => ?_⟩
          have hd := h3 hw
          dsimp only
          omega
      | waitMain hp hw =>
          dsimp only [TState.wgCount] at hw
          exact ⟨by dsimp only; omega, by dsimp only [TState.tokens]; omega,
            fun _ => by dsimp only; omega⟩

/-- C4: in every reachable state of the dispatch loop, for any number n of
discovered template files, at most 4 jobs are simultaneously executing (the
throttle channel of capacity 4 at ricer.go line 61 holds one token per job
from dispatch to release, so the executing population is bounded by 4), and
once the main flow has passed wg.Wait (line 78) every one of the n dispatched
jobs has reached its terminal state. -/
theorem throttle_bound_and_join (n : Nat) (s : TState) (h : Reachable n s) :
    s.executing ≤ 4 ∧ (s.waited = true → s.done = n) := by
  obtain ⟨h1, h2, h3⟩ := reachable_inv h
  refine ⟨?_, h3⟩
  simp only [TState.tokens] at h2
  omega

/-- Witness for C4 at a concrete reachable state with 5 discovered files, one
job executing after being dispatched and started. -/
theorem throttle_bound_and_join_witness :
    ({ pending := 4, dispatched := 0, executing := 1, finished := 0,
       released := 0, done := 0, waited := false } : TState).executing ≤ 4 ∧
    (({ pending := 4, dispatched := 0, executing := 1, finished := 0,
        released := 0, done := 0, waited := false } : TState).waited = true →
      ({ pending := 4, dispatched := 0, executing := 1, finished := 0,
         released := 0, done := 0, waited := false } : TState).done = 5) :=
  throttle_bound_and_join 5 _
    (Reachable.step
      (Reachable.step Reachable.init (TStep.dispatchJob _ (by decide) (by decide)))
      (TStep.startJob _ (by decide)))

/-- C6 counterexample: the derived template name is not always the base name
with the final extension stripped.  For the hidden template file a/.tmpl, Go's
filepath.Ext is the whole base name ".tmpl", so strings.TrimSuffix leaves
"a/" and filepath.Base yields the parent directory "a", while the base name
with its extension stripped is the empty string. -/
theorem tmplName_spec_counterexample :
    tmplName "a/.tmpl" = "a" ∧ specTmplName "a/.tmpl" = "" ∧
    tmplName "a/.tmpl" ≠ specTmplName "a/.tmpl" :=
  ⟨rfl, rfl, by decide⟩

/-- Scanning backwards, the extension of a path ending in .tmpl is .tmpl. -/
lemma extR_tmpl (rest : List Char) :
    extR ('l' :: 'p' :: 'm' :: 't' :: '.' :: rest) = ['l', 'p', 'm', 't', '.'] := rfl

/-- Trimming the reversed suffix .tmpl from a reversed path ending in it. -/
lemma trimSuffixR_tmpl (rest : List Char) :
    trimSuffixR ('l' :: 'p' :: 'm' :: 't' :: '.' :: rest) ['l', 'p', 'm', 't', '.'] = rest := rfl

/-- takeWhile up to the first separator returns the separator-free prefix. -/
lemma takeWhile_until_slash (l r : List Char) (h : ∀ c ∈ l, c ≠ '/') :
    (l ++ '/' :: r).takeWhile (fun c => c != '/') = l := by
  induction l with
  | nil => simp
  | cons a t ih =>
      have ha : a ≠ '/' := h a (List.mem_cons_self a t)
      simp only [List.cons_append, List.takeWhile_cons, bne_iff_ne, ne_eq, ha,
        not_false_eq_true, if_true, List.cons.injEq, true_and]
      exact ih (fun c hc => h c (List.mem_cons_of_mem a hc))

/-- baseR of a reversed path whose last element is nonempty and separator
free: the dropWhile does nothing and the takeWhile returns that element. -/
lemma baseR_append_slash (l r : List Char) (h0 : l ≠ []) (h : ∀ c ∈ l, c ≠ '/') :
    baseR (l ++ '/' :: r) = l := by
  cases l with
  | nil => exact absurd rfl h0
  | cons a t =>
      have ha : (a == '/') = false := by
        simpa using h a (List.mem_cons_self a t)
      have hd : (a :: (t ++ '/' :: r)).dropWhile (fun c => c == '/') = a :: (t ++ '/' :: r) := by
        rw [List.dropWhile_cons, ha]
        simp
      have ht : (a :: (t ++ '/' :: r)).takeWhile (fun c => c != '/') = a :: t := by
        rw [← List.cons_append]
        exact takeWhile_until_slash (a :: t) r h
      simp only [List.cons_append, baseR, hd, ht, List.isEmpty_cons, Bool.false_eq_true,
        if_false]

/-- C6 amended: for every template file path of the form dir/stem.tmpl whose
stem is nonempty and separator free, the derived template name (ricer.go line
133, a pure function of the path) equals the stem, which is exactly the file's
base name with its final extension stripped and all directory components
removed; the two derivations disagree only when the base name is entirely
extension, as in the counterexample a/.tmpl, where the code yields the parent
directory's name. -/
theorem tmplName_matches_spec_on_nonempty_stem (dir stem : String)
    (h1 : stem.data ≠ []) (h2 : ∀ c ∈ stem.data, c ≠ '/') :
    tmplName (dir ++ "/" ++ stem ++ ".tmpl") = stem ∧
    specTmplName (dir ++ "/" ++ stem ++ ".tmpl") = stem := by
  have hmem : ∀ c ∈ stem.data.reverse, c ≠ '/' := fun c hc => h2 c (List.mem_reverse.mp hc)
  have hnr : stem.data.reverse ≠ [] := by simpa using h1
  have hrp : (dir ++ "/" ++ stem ++ ".tmpl").data.reverse
      = 'l' :: 'p' :: 'm' :: 't' :: '.' :: (stem.data.reverse ++ '/' :: dir.data.reverse) := by
    simp [String.data_append, List.reverse_append]
  constructor
  · unfold tmplName goBase goTrimSuffix goExt
    simp only [hrp, extR_tmpl, List.reverse_reverse, trimSuffixR_tmpl]
    rw [baseR_append_slash stem.data.reverse dir.data.reverse hnr hmem]
    simp
  · have hl : ∀ c ∈ ('l' :: 'p' :: 'm' :: 't' :: '.' :: stem.data.reverse), c ≠ '/' := by
      intro c hc
      simp only [List.mem_cons] at hc
      rcases hc with rfl | rfl | rfl | rfl | rfl | hc
      · decide
      · decide
      · decide
      · decide
      · decide
      · exact hmem c hc
    have hb : baseR (dir ++ "/" ++ stem ++ ".tmpl").data.reverse
        = 'l' :: 'p' :: 'm' :: 't' :: '.' :: stem.data.reverse := by
      rw [hrp]
      have hba := baseR_append_slash ('l' :: 'p' :: 'm' :: 't' :: '.' :: stem.data.reverse)
        dir.data.reverse (by simp) hl
      simpa [List.cons_append] using hba
    unfold specTmplName goBase goExt goTrimSuffix
    rw [hb]
    simp only [List.reverse_reverse, extR_tmpl, trimSuffixR_tmpl]

/-- Witness for the amended C6 at the concrete path /d/shell.tmpl. -/
theorem tmplName_matches_spec_on_nonempty_stem_witness :
    ("shell" : String).data ≠ [] ∧ (∀ c ∈ ("shell" : String).data, c ≠ '/') ∧
    (tmplName ("/d" ++ "/" ++ "shell" ++ ".tmpl") = "shell" ∧
     specTmplName ("/d" ++ "/" ++ "shell" ++ ".tmpl") = "shell") :=
  ⟨by decide, by decide,
    tmplName_matches_spec_on_nonempty_stem "/d" "shell" (by decide) (by decide)⟩

/-- handleTemplate reads the filesystem only at its own template file. -/
lemma handleTemplate_fs_congr (E : Engine) (cfg : Config) (env : Env)
    (fs1 fs2 : FS) (file : String) (h : fs1 file = fs2 file) :
    handleTemplate E cfg env fs1 file = handleTemplate E cfg env fs2 file := by
  simp only [handleTemplate, h]

/-- Every content mutation recorded by a job targets that job's configured
output path: handleTemplate writes nowhere else. -/
lemma handleTemplate_target (E : Engine) (cfg : Config) (env : Env)
    (fs : FS) (file : String) :
    ∀ op ∈ (handleTemplate E cfg env fs file).ops,
      op.target = none ∨ op.target = some (outputOf cfg file) := by
  unfold handleTemplate outputOf
  cases hp : (fs file).bind E.parse with
  | none => simp
  | some t =>
      dsimp only
      split
      · simp
      · split
        · simp
        · split
          · simp [FsOp.target]
          · simp [FsOp.target]

/-- A mutation whose target is not q leaves the content at q unchanged. -/
lemma applyOp_ne (fs : FS) (op : FsOp) (q : String) (h : op.target ≠ some q) :
    applyOp fs op q = fs q := by
  cases op with
  | mkdirAll d => rfl
  | create p =>
      have hq : q ≠ p := fun hqp => h (by simp [FsOp.target, hqp])
      simp [applyOp, hq]
  | write p c =>
      have hq : q ≠ p := fun hqp => h (by simp [FsOp.target, hqp])
      simp [applyOp, hq]

/-- A trace of mutations none of which targets q leaves q unchanged. -/
lemma applyOps_ne (ops : List FsOp) : ∀ (fs : FS) (q : String),
    (∀ op ∈ ops, op.target ≠ some q) → applyOps fs ops q = fs q := by
  induction ops with
  | nil => intro fs q _; rfl
  | cons op rest ih =>
      intro fs q h
      show applyOps (applyOp fs op) rest q = fs q
      rw [ih (applyOp fs op) q (fun o ho => h o (List.mem_cons_of_mem op ho))]
      exact applyOp_ne fs op q (h op (List.mem_cons_self op rest))

/-- Applying one trace of mutations to two filesystems: at every path either
both end with the same content (the trace wrote it) or both keep their
starting content (the trace did not touch the path). -/
lemma applyOps_pair (ops : List FsOp) : ∀ (g1 g2 : FS) (p : String),
    applyOps g1 ops p = applyOps g2 ops p ∨
      (applyOps g1 ops p = g1 p ∧ applyOps g2 ops p = g2 p) := by
  induction ops with
  | nil => intro g1 g2 p; exact Or.inr ⟨rfl, rfl⟩
  | cons op rest ih =>
      intro g1 g2 p
      rcases ih (applyOp g1 op) (applyOp g2 op) p with h | ⟨ha, hb⟩
      · exact Or.inl h
      · cases op with
        | mkdirAll d => exact Or.inr ⟨ha, hb⟩
        | create q =>
            by_cases hpq : p = q
            · left
              show applyOps (applyOp g1 (FsOp.create q)) rest p =
                applyOps (applyOp g2 (FsOp.create q)) rest p
              rw [ha, hb]
              simp [applyOp, hpq]
            · right
              refine ⟨?_, ?_⟩
              · show applyOps (applyOp g1 (FsOp.create q)) rest p = g1 p
                rw [ha]
                simp [applyOp, hpq]
              · show applyOps (applyOp g2 (FsOp.create q)) rest p = g2 p
                rw [hb]
                simp [applyOp, hpq]
        | write q c =>
            by_cases hpq : p = q
            · left
              show applyOps (applyOp g1 (FsOp.write q c)) rest p =
                applyOps (applyOp g2 (FsOp.write q c)) rest p
              rw [ha, hb]
              simp [applyOp, hpq]
            · right
              refine ⟨?_, ?_⟩
              · show applyOps (applyOp g1 (FsOp.write q c)) rest p = g1 p
                rw [ha]
                simp [applyOp, hpq]
              · show applyOps (applyOp g2 (FsOp.write q c)) rest p = g2 p
                rw [hb]
                simp [applyOp, hpq]

/-- Unfolding equation of runJobs on a nonempty job list. -/
lemma runJobs_cons (E : Engine) (cfg : Config) (env : Env) (fs : FS)
    (x : String) (rest : List String) :
    runJobs E cfg env fs (x :: rest) =
      ((runJobs E cfg env (applyOps fs (handleTemplate E cfg env fs x).ops) rest).1,
       ((handleTemplate E cfg env fs x).prints ++
         (match (handleTemplate E cfg env fs x).err with | some m => [m] | none => [])) ++
         (runJobs E cfg env (applyOps fs (handleTemplate E cfg env fs x).ops) rest).2.1,
       (handleTemplate E cfg env fs x).ops ++
         (runJobs E cfg env (applyOps fs (handleTemplate E cfg env fs x).ops) rest).2.2) := rfl

/-- When every job's output avoids the set T of template files, the render
phase never changes the content of any path in T. -/
lemma runJobs_preserves (E : Engine) (cfg : Config) (env : Env) (T : List String)
    (H : ∀ x ∈ T, outputOf cfg x ∉ T) :
    ∀ (l : List String), (∀ x ∈ l, x ∈ T) → ∀ (g : FS) (t : String), t ∈ T →
      (runJobs E cfg env g l).1 t = g t := by
  intro l
  induction l with
  | nil => intro _ g t _; rfl
  | cons x rest ih =>
      intro hsub g t ht
      have hx : x ∈ T := hsub x (List.mem_cons_self x rest)
      have hops := handleTemplate_target E cfg env g x
      show (runJobs E cfg env (applyOps g (handleTemplate E cfg env g x).ops) rest).1 t = g t
      rw [ih (fun y hy => hsub y (List.mem_cons_of_mem x hy)) _ t ht]
      apply applyOps_ne
      intro op hop
      rcases hops op hop with h0 | h0
      · rw [h0]
        simp
      · rw [h0]
        intro hc
        exact H x hx ((Option.some.inj hc) ▸ ht)

/-- Two render phases over the same job list, started from filesystems that
agree on every template file in T: both runs print the same console lines and
perform the same mutations, and at every path either both final filesystems
agree or both keep their respective starting content. -/
lemma runJobs_pair (E : Engine) (cfg : Config) (env : Env) (T : List String)
    (H : ∀ x ∈ T, outputOf cfg x ∉ T) :
    ∀ (l : List String), (∀ x ∈ l, x ∈ T) → ∀ (g1 g2 : FS), (∀ t ∈ T, g1 t = g2 t) →
      (runJobs E cfg env g1 l).2 = (runJobs E cfg env g2 l).2 ∧
      ∀ p, (runJobs E cfg env g1 l).1 p = (runJobs E cfg env g2 l).1 p ∨
        ((runJobs E cfg env g1 l).1 p = g1 p ∧ (runJobs E cfg env g2 l).1 p = g2 p) := by
  intro l
  induction l with
  | nil => intro _ g1 g2 _; exact ⟨rfl, fun p => Or.inr ⟨rfl, rfl⟩⟩
  | cons x rest ih =>
      intro hsub g1 g2 hg
      have hx : x ∈ T := hsub x (List.mem_cons_self x rest)
      have hsub2 : ∀ y ∈ rest, y ∈ T := fun y hy => hsub y (List.mem_cons_of_mem x hy)
      have hr : handleTemplate E cfg env g2 x = handleTemplate E cfg env g1 x :=
        handleTemplate_fs_congr E cfg env g2 g1 x (hg x hx).symm
      have hops := handleTemplate_target E cfg env g1 x
      have havoid : ∀ t ∈ T, ∀ op ∈ (handleTemplate E cfg env g1 x).ops,
          op.target ≠ some t := by
        intro t ht op hop
        rcases hops op hop with h0 | h0
        · rw [h0]
          simp
        · rw [h0]
          intro hc
          exact H x hx ((Option.some.inj hc) ▸ ht)
      have hg2 : ∀ t ∈ T, applyOps g1 (handleTemplate E cfg env g1 x).ops t =
          applyOps g2 (handleTemplate E cfg env g1 x).ops t := by
        intro t ht
        rw [applyOps_ne _ g1 t (havoid t ht), applyOps_ne _ g2 t (havoid t ht)]
        exact hg t ht
      obtain ⟨h2eq, hpt⟩ := ih hsub2 (applyOps g1 (handleTemplate E cfg env g1 x).ops)
        (applyOps g2 (handleTemplate E cfg env g1 x).ops) hg2
      constructor
      · simp only [runJobs_cons, hr]
        rw [h2eq]
      · intro p
        simp only [runJobs_cons, hr]
        rcases hpt p with h | ⟨ha, hb⟩
        · exact Or.inl h
        · rcases applyOps_pair (handleTemplate E cfg env g1 x).ops g1 g2 p with hq | ⟨hq1, hq2⟩
          · exact Or.inl (by rw [ha, hb, hq])
          · exact Or.inr ⟨by rw [ha, hq1], by rw [hb, hq2]⟩

/-- C7: running the render phase a second time over the same template files
with the same configuration, starting from the filesystem the first run
produced, yields exactly the first run's result: the same final file contents
at every path, the same console lines and the same mutation trace.  The
hypothesis formalizes the claim's unchanged-template-files precondition: no
job's configured output path is itself one of the template files, so the
first run leaves every template file byte-identical and the second run reads
what the first run read. -/
theorem run_idempotent (E : Engine) (cfg : Config) (env : Env) (files : List String)
    (H : ∀ x ∈ files, outputOf cfg x ∉ files) :
    runJobs E cfg env (runJobs E cfg env env.fs files).1 files =
      runJobs E cfg env env.fs files := by
  have hsub : ∀ x ∈ files, x ∈ files := fun x hx => hx
  have hT : ∀ t ∈ files, (runJobs E cfg env env.fs files).1 t = env.fs t :=
    fun t ht => runJobs_preserves E cfg env files H files hsub env.fs t ht
  obtain ⟨h2, hp⟩ := runJobs_pair E cfg env files H files hsub
    (runJobs E cfg env env.fs files).1 env.fs hT
  have h1 : (runJobs E cfg env (runJobs E cfg env env.fs files).1 files).1 =
      (runJobs E cfg env env.fs files).1 := by
    funext p
    rcases hp p with h | ⟨ha, _⟩
    · exact h
    · exact ha
  exact Prod.ext h1 h2

/-- Witness for C7 at the concrete shell environment: one template whose
output path is not a template file. -/
theorem run_idempotent_witness :
    (∀ x ∈ ["/d/shell.tmpl"], outputOf cfgShell x ∉ ["/d/shell.tmpl"]) ∧
    runJobs engEcho cfgShell envShell
        (runJobs engEcho cfgShell envShell envShell.fs ["/d/shell.tmpl"]).1 ["/d/shell.tmpl"] =
      runJobs engEcho cfgShell envShell envShell.fs ["/d/shell.tmpl"] :=
  ⟨by decide, run_idempotent engEcho cfgShell envShell ["/d/shell.tmpl"] (by decide)⟩

end Ricer
